import Mathlib

set_option maxRecDepth 8000

/-
  Verification development for the AI-news scraper pipeline
  (tools/run_scrapers.py, tools/scrape_bens_bites.py, tools/scrape_rundown.py).

  The Python sources are shallowly embedded: pure functions become Lean
  functions, stdlib behaviour (str methods, datetime.strptime, hashlib.sha256,
  regular-expression matching) is modelled explicitly, and network / HTML-event
  boundaries are abstracted as explicit parameters carrying the data the
  stdlib parsers would deliver.
-/

/-! ## Python string primitives -/

/-- ASCII whitespace as recognised by Python's str.strip and regex \s
    (space, tab, newline, carriage return, vertical tab, form feed). -/
def pyIsSpace (c : Char) : Bool :=
  c = ' ' || c = '\t' || c = '\n' || c = '\r' || c = Char.ofNat 11 || c = Char.ofNat 12

/-- Model of Python str.strip() on a character list. -/
def pyStripList (cs : List Char) : List Char :=
  ((cs.dropWhile pyIsSpace).reverse.dropWhile pyIsSpace).reverse

/-- Model of Python str.strip(). -/
def pyStrip (s : String) : String :=
  String.mk (pyStripList s.data)

/-- Model of Python str.rstrip(',') — removes every trailing comma. -/
def pyRstripComma (s : String) : String :=
  String.mk ((s.data.reverse.dropWhile (fun c => c = ',')).reverse)

/-- Decimal digit value of a character, if it is a digit. -/
def digitVal (c : Char) : Option Nat :=
  if '0' ≤ c ∧ c ≤ '9' then some (c.toNat - 48) else none

/-- Case-insensitive character equality (Python strptime compiles its
    regular expressions with IGNORECASE). -/
def chIEq (a b : Char) : Bool :=
  a.toLower = b.toLower

/-- Consume a fixed pattern case-insensitively; return the rest on success. -/
def matchCI : List Char → List Char → Option (List Char)
  | [], cs => some cs
  | _ :: _, [] => none
  | p :: ps, c :: cs => if chIEq p c then matchCI ps cs else none

/-! ## Python datetime model

    A datetime is a wall-clock time plus an optional UTC offset in seconds;
    offset = none models a naive datetime. -/

structure PyDateTime where
  year : Nat
  month : Nat
  day : Nat
  hour : Nat
  minute : Nat
  second : Nat
  tzOffsetSeconds : Option Int
deriving Repr, DecidableEq

/-- A datetime is timezone-aware when it carries an offset. -/
def PyDateTime.isAware (d : PyDateTime) : Bool :=
  d.tzOffsetSeconds.isSome

/-- Leap-year rule of the proleptic Gregorian calendar (Python datetime). -/
def isLeapYear (y : Nat) : Bool :=
  (y % 4 = 0 && y % 100 ≠ 0) || y % 400 = 0

/-- Days in a month, as validated by the datetime constructor. -/
def daysInMonth (y m : Nat) : Nat :=
  if m = 2 then (if isLeapYear y then 29 else 28)
  else if m = 4 || m = 6 || m = 9 || m = 11 then 30
  else 31

/-- Days from the civil epoch 1970-01-01 (Howard Hinnant's algorithm). -/
def daysFromCivil (y m d : Int) : Int :=
  let y' := y - (if m ≤ 2 then 1 else 0)
  let era := (if 0 ≤ y' then y' else y' - 399) / 400
  let yoe := y' - era * 400
  let doy := (153 * (m + (if 2 < m then -3 else 9)) + 2) / 5 + d - 1
  let doe := yoe * 365 + yoe / 4 - yoe / 100 + doy
  era * 146097 + doe - 719468

/-- The instant of an aware datetime as seconds since the Unix epoch
    (naive datetimes use offset 0 here; the pipeline only compares after
    coercing naive values to UTC, which is the same thing). -/
def PyDateTime.toInstant (dt : PyDateTime) : Int :=
  86400 * daysFromCivil dt.year dt.month dt.day
    + 3600 * dt.hour + 60 * dt.minute + dt.second
    - dt.tzOffsetSeconds.getD 0

/-- Python aware-datetime comparison: compare instants. -/
def PyDateTime.lt (a b : PyDateTime) : Bool :=
  a.toInstant < b.toInstant

/-- datetime.replace(tzinfo=timezone.utc) applied when the value is naive. -/
def PyDateTime.coerceUTC (dt : PyDateTime) : PyDateTime :=
  match dt.tzOffsetSeconds with
  | some _ => dt
  | none => { dt with tzOffsetSeconds := some 0 }

/-- Left-pad a decimal rendering to the given width with zeros. -/
def padNum (width n : Nat) : String :=
  let s := toString n
  String.mk (List.replicate (width - s.length) '0') ++ s

/-- Python datetime.isoformat() for the values this pipeline produces
    (microsecond-free): YYYY-MM-DDTHH:MM:SS plus a +HH:MM style offset when
    aware (with a seconds part only when the offset is not whole minutes). -/
def PyDateTime.isoformat (dt : PyDateTime) : String :=
  let base := padNum 4 dt.year ++ "-" ++ padNum 2 dt.month ++ "-" ++ padNum 2 dt.day
    ++ "T" ++ padNum 2 dt.hour ++ ":" ++ padNum 2 dt.minute ++ ":" ++ padNum 2 dt.second
  match dt.tzOffsetSeconds with
  | none => base
  | some off =>
    let sign := if off < 0 then "-" else "+"
    let a := off.natAbs
    let rest := if a % 60 = 0 then "" else ":" ++ padNum 2 (a % 60)
    base ++ sign ++ padNum 2 (a / 3600) ++ ":" ++ padNum 2 ((a / 60) % 60) ++ rest

/-! ## strptime model

    Each format string used by the scrapers is compiled to a token list, and
    the tokens are interpreted over the input. This mirrors CPython's
    _strptime: whitespace in the format matches one-or-more whitespace
    characters, matching is case-insensitive, numeric fields take two digits
    when the two-digit value fits the field's pattern and otherwise one, and
    the whole input must be consumed. -/

inductive FTok where
  | year | month | day | hour | minute | second
  | wkAbbr | monAbbr | monFull
  | tzOffset | tzName
  | lit (c : Char) | ws
deriving Repr, DecidableEq

/-- Parse exactly four decimal digits (the %Y field). -/
def parse4Digits (cs : List Char) : Option (Nat × List Char) :=
  match cs with
  | c1 :: c2 :: c3 :: c4 :: rest =>
    match digitVal c1, digitVal c2, digitVal c3, digitVal c4 with
    | some d1, some d2, some d3, some d4 => some (1000*d1 + 100*d2 + 10*d3 + d4, rest)
    | _, _, _, _ => none
  | _ => none

/-- Parse a one-or-two digit numeric field: two digits are taken when the
    combined value satisfies valid2, else one digit when it satisfies
    valid1 (the shape of _strptime's alternation patterns for %d %m %H %M %S). -/
def parse2or1 (valid2 valid1 : Nat → Bool) (cs : List Char) : Option (Nat × List Char) :=
  match cs with
  | [] => none
  | [c1] =>
    match digitVal c1 with
    | some d1 => if valid1 d1 then some (d1, []) else none
    | none => none
  | c1 :: c2 :: rest =>
    match digitVal c1, digitVal c2 with
    | some d1, some d2 =>
      if valid2 (10*d1 + d2) then some (10*d1 + d2, rest)
      else if valid1 d1 then some (d1, c2 :: rest) else none
    | some d1, none => if valid1 d1 then some (d1, c2 :: rest) else none
    | none, _ => none

def weekdayAbbrs : List String :=
  ["mon", "tue", "wed", "thu", "fri", "sat", "sun"]

def monthAbbrs : List (String × Nat) :=
  [("jan", 1), ("feb", 2), ("mar", 3), ("apr", 4), ("may", 5), ("jun", 6),
   ("jul", 7), ("aug", 8), ("sep", 9), ("oct", 10), ("nov", 11), ("dec", 12)]

def monthFulls : List (String × Nat) :=
  [("january", 1), ("february", 2), ("march", 3), ("april", 4), ("may", 5),
   ("june", 6), ("july", 7), ("august", 8), ("september", 9), ("october", 10),
   ("november", 11), ("december", 12)]

/-- Match one name from a candidate list, case-insensitively. -/
def matchName (names : List (String × Nat)) (cs : List Char) : Option (Nat × List Char) :=
  match names with
  | [] => none
  | (n, v) :: rest =>
    match matchCI n.data cs with
    | some cs' => some (v, cs')
    | none => matchName rest cs

/-- One-or-more whitespace characters (format-string whitespace). -/
def parseWs (cs : List Char) : Option (List Char) :=
  match cs with
  | c :: rest => if pyIsSpace c then some (rest.dropWhile pyIsSpace) else none
  | [] => none

/-- Two decimal digits. -/
def parse2Digits (cs : List Char) : Option (Nat × List Char) :=
  match cs with
  | c1 :: c2 :: rest =>
    match digitVal c1, digitVal c2 with
    | some d1, some d2 => some (10*d1 + d2, rest)
    | _, _ => none
  | _ => none

/-- The %z field: an upper-case Z, or a signed HH[:]MM offset with an
    optional seconds part; values producing an offset of a day or more are
    rejected by the timezone constructor. Fractional-second offsets are not
    modelled (the pipeline never meets them). -/
def parseTzOffset (cs : List Char) : Option (Int × List Char) :=
  match cs with
  | 'Z' :: rest => some (0, rest)
  | s :: rest =>
    if s = '+' ∨ s = '-' then
      match parse2Digits rest with
      | none => none
      | some (hh, r1) =>
        let r1' := if r1.head? = some ':' then r1.tail else r1
        match parse2Digits r1' with
        | none => none
        | some (mm, r2) =>
          if mm ≤ 59 then
            let r2' := if r2.head? = some ':' then r2.tail else r2
            let (ss, r3) :=
              match parse2Digits r2' with
              | some (v, r) => if v ≤ 59 then (v, r) else (0, r2)
              | none => (0, r2)
            let total : Int := (hh * 3600 + mm * 60 + ss : Nat)
            if total < 86400 then
              some (if s = '-' then -total else total, r3)
            else none
          else none
    else none
  | [] => none

/-- The %Z field: a known timezone name; the scrapers' feeds use UTC/GMT.
    Matching it leaves the result naive (as CPython does for %Z alone). -/
def parseTzName (cs : List Char) : Option (List Char) :=
  match matchCI "utc".data cs with
  | some r => some r
  | none =>
    match matchCI "gmt".data cs with
    | some r => some r
    | none => none

/-- Intermediate strptime record (defaults 1900-01-01 00:00:00, naive). -/
structure RawDT where
  year : Nat := 1900
  month : Nat := 1
  day : Nat := 1
  hour : Nat := 0
  minute : Nat := 0
  second : Nat := 0
  tz : Option Int := none
deriving Repr

/-- Interpret a token list over the input characters. -/
def runToks : List FTok → List Char → RawDT → Option RawDT
  | [], cs, acc => if cs.isEmpty then some acc else none
  | t :: ts, cs, acc =>
    match t with
    | .year =>
      match parse4Digits cs with
      | some (v, r) => runToks ts r { acc with year := v }
      | none => none
    | .month =>
      match parse2or1 (fun v => 1 ≤ v && v ≤ 12) (fun _ => true) cs with
      | some (v, r) => runToks ts r { acc with month := v }
      | none => none
    | .day =>
      match parse2or1 (fun v => 1 ≤ v && v ≤ 31) (fun v => 1 ≤ v) cs with
      | some (v, r) => runToks ts r { acc with day := v }
      | none => none
    | .hour =>
      match parse2or1 (fun v => v ≤ 23) (fun _ => true) cs with
      | some (v, r) => runToks ts r { acc with hour := v }
      | none => none
    | .minute =>
      match parse2or1 (fun v => v ≤ 59) (fun _ => true) cs with
      | some (v, r) => runToks ts r { acc with minute := v }
      | none => none
    | .second =>
      match parse2or1 (fun v => v ≤ 59) (fun _ => true) cs with
      | some (v, r) => runToks ts r { acc with second := v }
      | none => none
    | .wkAbbr =>
      match matchName (weekdayAbbrs.map (fun n => (n, 0))) cs with
      | some (_, r) => runToks ts r acc
      | none => none
    | .monAbbr =>
      match matchName monthAbbrs cs with
      | some (v, r) => runToks ts r { acc with month := v }
      | none => none
    | .monFull =>
      match matchName monthFulls cs with
      | some (v, r) => runToks ts r { acc with month := v }
      | none => none
    | .tzOffset =>
      match parseTzOffset cs with
      | some (v, r) => runToks ts r { acc with tz := some v }
      | none => none
    | .tzName =>
      match parseTzName cs with
      | some r => runToks ts r acc
      | none => none
    | .lit c =>
      match cs with
      | c' :: r => if chIEq c c' then runToks ts r acc else none
      | [] => none
    | .ws =>
      match parseWs cs with
      | some r => runToks ts r acc
      | none => none

/-- Field validation performed by the datetime constructor. -/
def validateDT (r : RawDT) : Option PyDateTime :=
  if 1 ≤ r.year ∧ 1 ≤ r.month ∧ r.month ≤ 12 ∧ 1 ≤ r.day ∧ r.day ≤ daysInMonth r.year r.month
  then some ⟨r.year, r.month, r.day, r.hour, r.minute, r.second, r.tz⟩
  else none

/-- datetime.strptime over a compiled format. -/
def strptime (fmt : List FTok) (s : String) : Option PyDateTime :=
  (runToks fmt s.data {}).bind validateDT

/-- The try/except loop both date normalizers run: attempt the formats in
    order, returning the first successful parse. -/
def tryFormats (fmts : List (List FTok)) (s : String) : Option PyDateTime :=
  match fmts with
  | [] => none
  | fmt :: rest =>
    match strptime fmt s with
    | some dt => some dt
    | none => tryFormats rest s

/-! ## scrape_bens_bites.parse_rss_date -/

namespace BensBites

/-- Compiled form of the RFC-2822 style format with numeric offset
    (the pattern string with percent-a, percent-d, percent-b, percent-Y,
    percent-H:percent-M:percent-S and percent-z fields). -/
def rssFmt1 : List FTok :=
  [.wkAbbr, .lit ',', .ws, .day, .ws, .monAbbr, .ws, .year, .ws,
   .hour, .lit ':', .minute, .lit ':', .second, .ws, .tzOffset]

/-- Same pattern with a named timezone (percent-Z) — yields a naive result. -/
def rssFmt2 : List FTok :=
  [.wkAbbr, .lit ',', .ws, .day, .ws, .monAbbr, .ws, .year, .ws,
   .hour, .lit ':', .minute, .lit ':', .second, .ws, .tzName]

/-- The weekday-less variant with numeric offset. -/
def rssFmt3 : List FTok :=
  [.day, .ws, .monAbbr, .ws, .year, .ws,
   .hour, .lit ':', .minute, .lit ':', .second, .ws, .tzOffset]

def rssFormats : List (List FTok) := [rssFmt1, rssFmt2, rssFmt3]

/-- scrape_bens_bites.parse_rss_date: strip the raw string, then return
    the first format that parses (the format loop never raises). -/
def parse_rss_date (date_str : String) : Option PyDateTime :=
  tryFormats rssFormats (pyStrip date_str)

end BensBites

/-! ## scrape_rundown.parse_article_date -/

namespace Rundown

/-- ISO with numeric or Z offset (percent-z). -/
def artFmt1 : List FTok :=
  [.year, .lit '-', .month, .lit '-', .day, .lit 'T',
   .hour, .lit ':', .minute, .lit ':', .second, .tzOffset]

/-- ISO with literal Z. -/
def artFmt2 : List FTok :=
  [.year, .lit '-', .month, .lit '-', .day, .lit 'T',
   .hour, .lit ':', .minute, .lit ':', .second, .lit 'Z']

/-- Plain ISO date. -/
def artFmt3 : List FTok := [.year, .lit '-', .month, .lit '-', .day]

/-- Abbreviated month, no comma. -/
def artFmt4 : List FTok := [.monAbbr, .ws, .day, .ws, .year]

/-- Full month, no comma. -/
def artFmt5 : List FTok := [.monFull, .ws, .day, .ws, .year]

/-- Abbreviated month with comma. -/
def artFmt6 : List FTok := [.monAbbr, .ws, .day, .lit ',', .ws, .year]

/-- Full month with comma. -/
def artFmt7 : List FTok := [.monFull, .ws, .day, .lit ',', .ws, .year]

/-- Abbreviated month with trailing period. -/
def artFmt8 : List FTok := [.monAbbr, .lit '.', .ws, .day, .ws, .year]

def artFormats : List (List FTok) :=
  [artFmt1, artFmt2, artFmt3, artFmt4, artFmt5, artFmt6, artFmt7, artFmt8]

/-- scrape_rundown.parse_article_date: clean the raw string, try the format
    list in order, coerce a naive result to UTC before returning. -/
def parse_article_date (raw : String) : Option PyDateTime :=
  let clean := pyRstripComma (pyStrip raw)
  match tryFormats artFormats clean with
  | some dt => some dt.coerceUTC
  | none => none

end Rundown

/-! ## hashlib.sha256 model (pure, over Nat) and make_id

    Both adapters define make_id(url) as the first 16 hex characters of the
    SHA-256 digest of the URL's UTF-8 encoding. -/

/-- Reduce to an unsigned 32-bit value. -/
def u32 (n : Nat) : Nat := n % 4294967296

/-- 32-bit right rotation. -/
def rotr32 (k x : Nat) : Nat := u32 ((x >>> k) ||| (x <<< (32 - k)))

/-- UTF-8 encoding of a single code point (str.encode building block). -/
def utf8Bytes (c : Nat) : List Nat :=
  if c < 128 then [c]
  else if c < 2048 then [192 + c / 64, 128 + c % 64]
  else if c < 65536 then [224 + c / 4096, 128 + (c / 64) % 64, 128 + c % 64]
  else [240 + c / 262144, 128 + (c / 4096) % 64, 128 + (c / 64) % 64, 128 + c % 64]

/-- Python str.encode(): UTF-8 bytes of the string. -/
def strBytes (s : String) : List Nat :=
  (s.data.map (fun ch => utf8Bytes ch.toNat)).flatten

/-- SHA-256 round constants. -/
def sha256K : List Nat :=
  [1116352408, 1899447441, 3049323471, 3921009573,
   961987163, 1508970993, 2453635748, 2870763221,
   3624381080, 310598401, 607225278, 1426881987,
   1925078388, 2162078206, 2614888103, 3248222580,
   3835390401, 4022224774, 264347078, 604807628,
   770255983, 1249150122, 1555081692, 1996064986,
   2554220882, 2821834349, 2952996808, 3210313671,
   3336571891, 3584528711, 113926993, 338241895,
   666307205, 773529912, 1294757372, 1396182291,
   1695183700, 1986661051, 2177026350, 2456956037,
   2730485921, 2820302411, 3259730800, 3345764771,
   3516065817, 3600352804, 4094571909, 275423344,
   430227734, 506948616, 659060556, 883997877,
   958139571, 1322822218, 1537002063, 1747873779,
   1955562222, 2024104815, 2227730452, 2361852424,
   2428436474, 2756734187, 3204031479, 3329325298]

/-- SHA-256 working state: eight 32-bit words. -/
structure Sha256State where
  a : Nat
  b : Nat
  c : Nat
  d : Nat
  e : Nat
  f : Nat
  g : Nat
  h : Nat
deriving Repr, DecidableEq

def sha256Init : Sha256State :=
  ⟨1779033703, 3144134277, 1013904242, 2773480762,
   1359893119, 2600822924, 528734635, 1541459225⟩

/-- Message padding: append 0x80, zero bytes, and the 64-bit big-endian bit
    length, to a multiple of 64 bytes. -/
def sha256Pad (msg : List Nat) : List Nat :=
  let len := msg.length
  let zeros := (64 - ((len + 9) % 64)) % 64
  let bitLen := len * 8
  msg ++ [0x80] ++ List.replicate zeros 0 ++
    [(bitLen >>> 56) % 256, (bitLen >>> 48) % 256, (bitLen >>> 40) % 256,
     (bitLen >>> 32) % 256, (bitLen >>> 24) % 256, (bitLen >>> 16) % 256,
     (bitLen >>> 8) % 256, bitLen % 256]

/-- Split into 64-byte chunks; every step consumes at least one byte, so
    length-many steps suffice. -/
def chunks64Aux : Nat → List Nat → List (List Nat)
  | 0, _ => []
  | _, [] => []
  | fuel + 1, b :: rest => ((b :: rest).take 64) :: chunks64Aux fuel ((b :: rest).drop 64)

def chunks64 (bytes : List Nat) : List (List Nat) :=
  chunks64Aux bytes.length bytes

/-- 16 big-endian 32-bit words from a 64-byte chunk. -/
def chunkWords (chunk : List Nat) : Array Nat :=
  (List.range 16).foldl
    (fun acc i =>
      acc.push ((chunk.getD (4*i) 0) * 16777216 + (chunk.getD (4*i+1) 0) * 65536 +
                (chunk.getD (4*i+2) 0) * 256 + chunk.getD (4*i+3) 0))
    #[]

/-- Message-schedule extension to 64 words. -/
def sha256Schedule (ws : Array Nat) : Array Nat :=
  (List.range 48).foldl
    (fun acc i =>
      let w15 := acc.getD (i + 1) 0
      let w2 := acc.getD (i + 14) 0
      let s0 := rotr32 7 w15 ^^^ rotr32 18 w15 ^^^ (w15 >>> 3)
      let s1 := rotr32 17 w2 ^^^ rotr32 19 w2 ^^^ (w2 >>> 10)
      acc.push (u32 (acc.getD i 0 + s0 + acc.getD (i + 9) 0 + s1)))
    ws

/-- One compression round. -/
def sha256Round (st : Sha256State) (kw : Nat × Nat) : Sha256State :=
  let s1 := rotr32 6 st.e ^^^ rotr32 11 st.e ^^^ rotr32 25 st.e
  let ch := (st.e &&& st.f) ^^^ ((st.e ^^^ 4294967295) &&& st.g)
  let temp1 := u32 (st.h + s1 + ch + kw.1 + kw.2)
  let s0 := rotr32 2 st.a ^^^ rotr32 13 st.a ^^^ rotr32 22 st.a
  let maj := (st.a &&& st.b) ^^^ (st.a &&& st.c) ^^^ (st.b &&& st.c)
  let temp2 := u32 (s0 + maj)
  ⟨u32 (temp1 + temp2), st.a, st.b, st.c, u32 (st.d + temp1), st.e, st.f, st.g⟩

/-- Compress one 64-byte chunk into the running state. -/
def sha256Compress (st : Sha256State) (chunk : List Nat) : Sha256State :=
  let w := sha256Schedule (chunkWords chunk)
  let r := (sha256K.zip w.toList).foldl sha256Round st
  ⟨u32 (st.a + r.a), u32 (st.b + r.b), u32 (st.c + r.c), u32 (st.d + r.d),
   u32 (st.e + r.e), u32 (st.f + r.f), u32 (st.g + r.g), u32 (st.h + r.h)⟩

/-- The eight digest words of a byte message. -/
def sha256Digest (msg : List Nat) : Sha256State :=
  (chunks64 (sha256Pad msg)).foldl sha256Compress sha256Init

def hexDigit (n : Nat) : Char :=
  "0123456789abcdef".data.getD n '0'

/-- Eight lowercase hex characters of a 32-bit word, big-endian. -/
def wordHex (w : Nat) : List Char :=
  [hexDigit ((w >>> 28) % 16), hexDigit ((w >>> 24) % 16),
   hexDigit ((w >>> 20) % 16), hexDigit ((w >>> 16) % 16),
   hexDigit ((w >>> 12) % 16), hexDigit ((w >>> 8) % 16),
   hexDigit ((w >>> 4) % 16), hexDigit (w % 16)]

/-- hashlib.sha256(...).hexdigest(). -/
def sha256Hex (msg : List Nat) : List Char :=
  let d := sha256Digest msg
  wordHex d.a ++ wordHex d.b ++ wordHex d.c ++ wordHex d.d ++
  wordHex d.e ++ wordHex d.f ++ wordHex d.g ++ wordHex d.h

namespace BensBites

/-- scrape_bens_bites.make_id: first 16 hex chars of sha256 of the URL. -/
def make_id (url : String) : String :=
  String.mk ((sha256Hex (strBytes url)).take 16)

end BensBites

namespace Rundown

/-- scrape_rundown.make_id: textually identical to the Ben's Bites one. -/
def make_id (url : String) : String :=
  String.mk ((sha256Hex (strBytes url)).take 16)

end Rundown

/-! ## The body-text date regular expression of ArticleMetaParser

    scrape_rundown matches (case-sensitively) a month name with optional
    long-form suffix, an optional period, whitespace, one or two digits, an
    optional comma, whitespace, and a 20xx year. The pattern admits no
    overlap between a one-digit and a two-digit day reading (after the day
    the pattern requires a comma or whitespace, never a digit), so a
    deterministic greedy matcher realises exactly the regex semantics. -/

def monthAlts : List (String × String) :=
  [("Jan", "uary"), ("Feb", "ruary"), ("Mar", "ch"), ("Apr", "il"),
   ("May", ""), ("Jun", "e"), ("Jul", "y"), ("Aug", "ust"),
   ("Sep", "tember"), ("Oct", "ober"), ("Nov", "ember"), ("Dec", "ember")]

/-- Case-sensitive pattern consumption. -/
def matchCS : List Char → List Char → Option (List Char)
  | [], cs => some cs
  | _ :: _, [] => none
  | p :: ps, c :: cs => if p = c then matchCS ps cs else none

/-- Match the month alternation at the head of the input: the abbreviation,
    extended by its long-form suffix when the suffix is present. -/
def matchMonth (cs : List Char) : Option (String × List Char) :=
  let rec go : List (String × String) → Option (String × List Char)
    | [] => none
    | (abbr, suffixPart) :: rest =>
      match matchCS abbr.data cs with
      | some r0 =>
        if suffixPart.isEmpty then some (abbr, r0)
        else
          match matchCS suffixPart.data r0 with
          | some r1 => some (abbr ++ suffixPart, r1)
          | none => some (abbr, r0)
      | none => go rest
  go monthAlts

/-- One or two decimal digits, greedily, as written (the regex digit class
    here is plain, so 00 or 99 is a valid day capture). -/
def matchDayDigits (cs : List Char) : Option (String × List Char) :=
  match cs with
  | c1 :: c2 :: rest =>
    if (digitVal c1).isSome then
      if (digitVal c2).isSome then some (String.mk [c1, c2], rest)
      else some (String.mk [c1], c2 :: rest)
    else none
  | [c1] => if (digitVal c1).isSome then some (String.mk [c1], []) else none
  | [] => none

/-- A 20xx year: the digits 2, 0 and two more digits. -/
def matchYear (cs : List Char) : Option (String × List Char) :=
  match cs with
  | '2' :: '0' :: c3 :: c4 :: rest =>
    if (digitVal c3).isSome ∧ (digitVal c4).isSome
    then some (String.mk ['2', '0', c3, c4], rest) else none
  | _ => none

/-- Whitespace run of length at least one. -/
def matchWs1 (cs : List Char) : Option (List Char) :=
  match cs with
  | c :: rest => if pyIsSpace c then some (rest.dropWhile pyIsSpace) else none
  | [] => none

/-- Attempt the whole date pattern at the current position; on success
    return the assembled capture (month, space, day, comma-space, year — the
    raw string the Python code rebuilds from the three groups) and the rest. -/
def matchDateAt (cs : List Char) : Option (String × List Char) :=
  match matchMonth cs with
  | none => none
  | some (mon, r1) =>
    let r2 := if r1.head? = some '.' then r1.tail else r1
    match matchWs1 r2 with
    | none => none
    | some r3 =>
      match matchDayDigits r3 with
      | none => none
      | some (day, r4) =>
        let r5 := if r4.head? = some ',' then r4.tail else r4
        match matchWs1 r5 with
        | none => none
        | some r6 =>
          match matchYear r6 with
          | none => none
          | some (yr, r7) => some (mon ++ " " ++ day ++ ", " ++ yr, r7)

/-- re.findall scan: leftmost matches, resuming after each match. Every
    step consumes at least one character, so length-many steps suffice. -/
def findDatesAux : Nat → List Char → List String
  | 0, _ => []
  | _ + 1, [] => []
  | fuel + 1, c :: cs =>
    match matchDateAt (c :: cs) with
    | some (raw, rest) => raw :: findDatesAux fuel rest
    | none => findDatesAux fuel cs

/-- All date-like substrings of a body-text chunk, in order of occurrence. -/
def findDates (s : String) : List String :=
  findDatesAux s.data.length s.data

/-! ## HTML feed events and the two HTML handler classes

    html.parser.HTMLParser turns a document into a stream of callbacks; the
    embedding works over that stream. Attribute values are modelled as
    strings (valueless attributes, which CPython reports as None, do not
    occur on the meta tags these scrapers consume). -/

inductive HtmlEvent where
  | startTag (tag : String) (attrs : List (String × String))
  | endTag (tag : String)
  | chunk (s : String)
deriving Repr, DecidableEq

/-- dict(attrs) followed by .get(key): the last binding of a duplicated
    attribute wins. -/
def attrsGet (attrs : List (String × String)) (key : String) : Option String :=
  (attrs.filter (fun p => p.1 = key)).getLast?.map (fun p => p.2)

/-- Python truthiness of an optional string. -/
def pyTruthy (o : Option String) : Bool :=
  match o with
  | some s => s ≠ ""
  | none => false

/-- Python str.replace: replace every non-overlapping occurrence of a
    (non-empty) pattern, scanning left to right; each step consumes at least
    one character, so length-many steps suffice. -/
def replaceAllAux : Nat → List Char → List Char → List Char → List Char
  | 0, cs, _, _ => cs
  | _, [], _, _ => []
  | fuel + 1, c :: cs, pat, repl =>
    if pat.isPrefixOf (c :: cs) then
      repl ++ replaceAllAux fuel ((c :: cs).drop pat.length) pat repl
    else c :: replaceAllAux fuel cs pat repl

def pyReplace (s pat repl : String) : String :=
  String.mk (replaceAllAux s.data.length s.data pat.data repl.data)

/-- Substring test (the Python `in` operator on str). -/
def containsSub (cs sub : List Char) : Bool :=
  match cs with
  | [] => sub.isEmpty
  | _ :: t => if sub.isPrefixOf cs then true else containsSub t sub

/-- State of scrape_rundown.ArticleMetaParser: the meta dict entries it
    writes, plus the body-date accumulator. -/
structure MetaState where
  title : Option String := none
  description : Option String := none
  publishedAtMeta : Option String := none
  bodyDates : List String := []
deriving Repr, DecidableEq

namespace Rundown

/-- ArticleMetaParser.handle_starttag: record og/twitter title and
    description meta values first-wins, and article:published_time
    last-wins, the latter only when the content contains "202". -/
def metaStartTag (st : MetaState) (tag : String) (attrs : List (String × String)) : MetaState :=
  if tag = "meta" then
    let nameAttr := attrsGet attrs "name"
    let nm : Option String :=
      if pyTruthy nameAttr then nameAttr else some ((attrsGet attrs "property").getD "")
    let content : String := (attrsGet attrs "content").getD ""
    match nm with
    | none => st
    | some name =>
      if (name = "og:title" ∨ name = "twitter:title") ∧ st.title = none then
        { st with title := some content }
      else if (name = "og:description" ∨ name = "twitter:description" ∨ name = "description")
              ∧ st.description = none then
        { st with description := some content }
      else if name = "article:published_time" ∨ name = "og:article:published_time" then
        if content ≠ "" ∧ containsSub content.data "202".data then
          { st with publishedAtMeta := some content }
        else st
      else st
  else st

/-- ArticleMetaParser.handle_data: strip the chunk and collect every
    date-like substring. -/
def metaData (st : MetaState) (s : String) : MetaState :=
  { st with bodyDates := st.bodyDates ++ findDates (pyStrip s) }

/-- Feed one event to the parser state. -/
def metaStep (st : MetaState) (ev : HtmlEvent) : MetaState :=
  match ev with
  | .startTag tag attrs => metaStartTag st tag attrs
  | .endTag _ => st
  | .chunk s => metaData st s

/-- Run ArticleMetaParser over a whole event stream. -/
def metaParseEvents (evs : List HtmlEvent) : MetaState :=
  evs.foldl metaStep {}

/-- ArticleMetaParser.get_best_date: body-text dates first, then the
    sanity-filtered meta value. -/
def getBestDate (st : MetaState) : Option String :=
  match st.bodyDates with
  | d :: _ => some d
  | [] => st.publishedAtMeta

end Rundown

namespace BensBites

/-- HTMLStripper over the event stream: collect the data chunks. -/
def stripperFed (evs : List HtmlEvent) : List String :=
  evs.filterMap (fun ev =>
    match ev with
    | .chunk s => some s
    | _ => none)

/-- scrape_bens_bites.strip_html, over the HTML-event boundary: HTMLStripper
    joins the data chunks with spaces and strips; the result is truncated to
    300 characters with an ellipsis marker when longer. -/
def strip_html (evs : List HtmlEvent) : String :=
  let text := pyStrip (String.intercalate " " (stripperFed evs))
  if 300 < text.length then String.mk (text.data.take 300) ++ "..." else text

end BensBites

/-! ## Canonical records of the pipeline -/

structure Article where
  id : String
  source : String
  source_label : String
  title : String
  subtitle : Option String
  url : String
  published_at : Option String
  summary : Option String
  tags : List String
  scraped_at : String
deriving Repr, DecidableEq

structure SourceResult where
  scraped_at : String
  window_hours : Nat
  article_count : Nat
  articles : List Article
  error : Option String
deriving Repr, DecidableEq

structure MergedFeed where
  scraped_at : String
  window_hours : Nat
  article_count : Nat
  sources_bens_bites : Nat
  sources_rundown_ai : Nat
  articles : List Article
deriving Repr, DecidableEq

/-! ## Ben's Bites adapter (scrape_bens_bites.py)

    ElementTree's per-item field extraction is abstracted as an RSSItem
    record carrying each element's text (none when the element is missing
    or has no text); a document-level parse failure or a missing channel
    yields none in place of the item list. -/

structure RSSItem where
  title : Option String
  link : Option String
  description : Option String
  pubDate : Option String
  categories : List (Option String)
deriving Repr, DecidableEq

namespace BensBites

def WINDOW_HOURS : Nat := 48

/-- The per-item body of parse_articles: field cleanup, required-field and
    date checks, the recency filter, and article assembly. htmlData stands
    for HTMLParser's tokenisation of the description markup into data
    chunks, as fed to HTMLStripper. -/
def processItem (htmlData : String → List HtmlEvent) (cutoff : PyDateTime)
    (scraped_at : String) (it : RSSItem) : Option Article :=
  let title : Option String :=
    match it.title with
    | some t => if t ≠ "" then some (pyStrip t) else none
    | none => none
  let url : Option String :=
    match it.link with
    | some u => if u ≠ "" then some (pyStrip u) else none
    | none => none
  let tags : List String :=
    it.categories.filterMap (fun c =>
      match c with
      | some t => if t ≠ "" then some (pyStrip t) else none
      | none => none)
  match title, url with
  | some t, some u =>
    if t = "" ∨ u = "" then none
    else
      let pub0 : Option PyDateTime :=
        match it.pubDate with
        | some ds => if ds ≠ "" then parse_rss_date ds else none
        | none => none
      match pub0 with
      | none => none
      | some pd0 =>
        let pd := pd0.coerceUTC
        if pd.lt cutoff then none
        else some
          { id := make_id u
            source := "bens_bites"
            source_label := "Ben's Bites"
            title := t
            subtitle := none
            url := u
            published_at := some pd.isoformat
            summary :=
              match it.description with
              | some d => if d ≠ "" then some (strip_html (htmlData d)) else none
              | none => none
            tags := tags
            scraped_at := scraped_at }
  | _, _ => none

/-- scrape_bens_bites.parse_articles: none models a document-level XML
    failure or a missing channel (logged, zero articles); otherwise each
    item is processed independently. -/
def parse_articles (htmlData : String → List HtmlEvent)
    (parsed : Option (List RSSItem)) (cutoff : PyDateTime)
    (scraped_at : String) : List Article :=
  match parsed with
  | none => []
  | some items => items.filterMap (processItem htmlData cutoff scraped_at)

/-- scrape_bens_bites.run: fetched = none models a failed RSS fetch. The
    caller-visible clock values are parameters (now is read once at entry;
    cutoff is now minus the window). -/
def run (fetched : Option (Option (List RSSItem)))
    (htmlData : String → List HtmlEvent) (now cutoff : PyDateTime) : SourceResult :=
  let scraped_at := now.isoformat
  match fetched with
  | none =>
    { scraped_at := scraped_at
      window_hours := WINDOW_HOURS
      article_count := 0
      articles := []
      error := some "Failed to fetch RSS feed" }
  | some parsed =>
    let articles := parse_articles htmlData parsed cutoff scraped_at
    { scraped_at := scraped_at
      window_hours := WINDOW_HOURS
      article_count := articles.length
      articles := articles
      error := none }

end BensBites

/-! ## The AI Rundown adapter (scrape_rundown.py) -/

namespace Rundown

def WINDOW_HOURS : Nat := 48

/-- Outcome record of scrape_article_metadata. -/
structure ArticleMeta where
  title : String
  description : String
  published_at : Option PyDateTime
deriving Repr, DecidableEq

/-- scrape_rundown.scrape_article_metadata over the fetched page's event
    stream (none models a failed article fetch or an HTML parser error):
    read the meta dict, pick the best date, clean the title, cap the
    description, and drop the page when no title was found. -/
def scrape_article_metadata (page : Option (List HtmlEvent)) : Option ArticleMeta :=
  match page with
  | none => none
  | some evs =>
    let st := metaParseEvents evs
    let best_date_raw := getBestDate st
    let title := pyStrip (pyReplace (st.title.getD "") " | The Rundown AI" "")
    let description := pyStrip (st.description.getD "")
    let pub_date : Option PyDateTime :=
      match best_date_raw with
      | some raw => parse_article_date raw
      | none => none
    if title = "" then none
    else some
      { title := title
        description :=
          if 300 < description.length then String.mk (description.data.take 300) ++ "..."
          else description
        published_at := pub_date }

/-- The per-URL loop body of scrape_rundown.run: fetch and extract article
    metadata, default a missing date to now, coerce, filter by the window,
    and assemble the article record. pages pairs each candidate URL (the
    capped, first-seen-ordered homepage links) with its page's events. -/
def collectArticles (pages : List (String × Option (List HtmlEvent)))
    (now cutoff : PyDateTime) : List Article :=
  pages.filterMap (fun p =>
    match scrape_article_metadata p.2 with
    | none => none
    | some meta =>
      let pub0 : PyDateTime :=
        match meta.published_at with
        | none => now
        | some d => d
      let pub := pub0.coerceUTC
      if pub.lt cutoff then none
      else some
        { id := make_id p.1
          source := "rundown_ai"
          source_label := "The AI Rundown"
          title := meta.title
          subtitle := none
          url := p.1
          published_at := some pub.isoformat
          summary := some meta.description
          tags := ["AI", "Tech"]
          scraped_at := now.isoformat })

/-- scrape_rundown.run: homepage = none models a failed homepage fetch. -/
def run (homepage : Option (List (String × Option (List HtmlEvent))))
    (now cutoff : PyDateTime) : SourceResult :=
  let scraped_at := now.isoformat
  match homepage with
  | none =>
    { scraped_at := scraped_at
      window_hours := WINDOW_HOURS
      article_count := 0
      articles := []
      error := some "Failed to fetch homepage" }
  | some pages =>
    let articles := collectArticles pages now cutoff
    { scraped_at := scraped_at
      window_hours := WINDOW_HOURS
      article_count := articles.length
      articles := articles
      error := none }

end Rundown

/-! ## Orchestrator (run_scrapers.py) -/

namespace Orchestrator

/-- The sort key of run_scrapers.merge_and_dedup: the published_at string,
    with a Unix-epoch default when the record lacks one. -/
def sortKeyOf (a : Article) : String :=
  a.published_at.getD "1970-01-01T00:00:00+00:00"

/-- First-occurrence-kept deduplication by id over the concatenated
    article lists (the seen_ids loop). -/
def dedupScan : List Article → List String → List Article
  | [], _ => []
  | a :: rest, seen =>
    if a.id ∈ seen then dedupScan rest seen
    else a :: dedupScan rest (a.id :: seen)

/-- run_scrapers.merge_and_dedup: concatenate, dedup by id keeping the
    first occurrence, then stable-sort by published_at descending
    (list.sort with a key and reverse=True). -/
def merge_and_dedup (results : List SourceResult) : List Article :=
  let merged := dedupScan ((results.map SourceResult.articles).flatten) []
  merged.mergeSort (fun a b => sortKeyOf b ≤ sortKeyOf a)

/-- run_scrapers.run: call both adapters (Ben's Bites first), merge, and
    assemble the merged artifact with its fixed window_hours label of 24
    and the adapters' own article counts. -/
def run (bb_result rd_result : SourceResult) (now : PyDateTime) : MergedFeed :=
  let articles := merge_and_dedup [bb_result, rd_result]
  { scraped_at := now.isoformat
    window_hours := 24
    article_count := articles.length
    sources_bens_bites := bb_result.article_count
    sources_rundown_ai := rd_result.article_count
    articles := articles }

end Orchestrator

/-- Example article builder used by the concrete witnesses. -/
def exArticle (i u p : String) : Article :=
  { id := i, source := "s", source_label := "S", title := "T", subtitle := none,
    url := u, published_at := some p, summary := none, tags := [], scraped_at := "sc" }

/-- Example article carrying no published_at. -/
def exNoDate : Article :=
  { id := "n1", source := "s", source_label := "S", title := "T", subtitle := none,
    url := "u", published_at := none, summary := none, tags := [], scraped_at := "sc" }

def exBB : SourceResult :=
  ⟨"sc", 48, 2,
   [exArticle "i1" "u1" "2026-02-20T00:00:00+00:00",
    exArticle "i2" "u2" "2026-02-22T00:00:00+00:00"], none⟩

def exRD : SourceResult :=
  ⟨"sc", 48, 2,
   [exArticle "i1" "u1" "2026-02-21T00:00:00+00:00",
    exArticle "i3" "u3" "2026-02-23T00:00:00+00:00"], none⟩

def exNow : PyDateTime := ⟨2026, 2, 23, 0, 0, 0, some 0⟩

def exShared1 : Article :=
  { id := BensBites.make_id "https://example.com/a", source := "bens_bites",
    source_label := "B", title := "T", subtitle := none, url := "https://example.com/a",
    published_at := some "2026-02-22T00:00:00+00:00", summary := none, tags := [],
    scraped_at := "sc" }

def exShared2 : Article :=
  { id := Rundown.make_id "https://example.com/a", source := "rundown_ai",
    source_label := "R", title := "T2", subtitle := none, url := "https://example.com/a",
    published_at := some "2026-02-22T01:00:00+00:00", summary := none, tags := [],
    scraped_at := "sc" }

def exBBm : SourceResult := ⟨"sc", 48, 1, [exShared1], none⟩

def exRDm : SourceResult := ⟨"sc", 48, 1, [exShared2], none⟩

def c4Now : PyDateTime := ⟨2026, 2, 23, 0, 0, 0, some 0⟩

def c4Cutoff : PyDateTime := ⟨2026, 2, 21, 0, 0, 0, some 0⟩

def c4Item (ds : String) : RSSItem := ⟨some "T", some "u", none, some ds, []⟩

def c4Page : List HtmlEvent :=
  [.startTag "meta" [("property", "og:title"), ("content", "T2")], .chunk "Feb 22, 2026"]

/-- The handle_data payloads of an event stream, in order. -/
def dataChunks (evs : List HtmlEvent) : List String :=
  evs.filterMap (fun ev =>
    match ev with
    | .chunk s => some s
    | _ => none)

def c3Page : List HtmlEvent :=
  [.startTag "meta" [("property", "article:published_time"),
                     ("content", "2019-01-01T00:00:00Z")],
   .startTag "meta" [("property", "og:title"), ("content", "Test | The Rundown AI")],
   .startTag "meta" [("property", "og:description"), ("content", "Desc")],
   .chunk "Feb 20, 2026",
   .chunk "Other text Mar 1, 2026"]

def c9Long : String := String.mk (List.replicate 301 'a')

def c9Page : List HtmlEvent :=
  [.startTag "meta" [("property", "og:description"), ("content", c9Long)],
   .startTag "meta" [("property", "og:title"), ("content", "T")]]

/-- Base-128 code of a character list (every id character is ASCII). -/
def encode128 : List Char → Nat
  | [] => 0
  | c :: cs => c.toNat + 128 * encode128 cs

/-! ## Properties of the merge/dedup/sort stage -/

theorem dedupScan_mem_spec : ∀ (l : List Article) (seen : List String) (a : Article),
    a ∈ Orchestrator.dedupScan l seen →
    a.id ∉ seen ∧ l.find? (fun b => b.id == a.id) = some a := by
  intro l
  induction l with
  | nil => intro seen a h; simp [Orchestrator.dedupScan] at h
  | cons x rest ih =>
    intro seen a h
    by_cases hx : x.id ∈ seen
    · simp only [Orchestrator.dedupScan, if_pos hx] at h
      obtain ⟨hns, hfind⟩ := ih seen a h
      refine ⟨hns, ?_⟩
      have hne : (x.id == a.id) = false := by
        by_contra hcontra
        have : x.id = a.id := by
          have := eq_true_of_ne_false hcontra
          exact of_decide_eq_true this
        exact hns (this ▸ hx)
      simp [List.find?, hne, hfind]
    · simp only [Orchestrator.dedupScan, if_neg hx] at h
      rcases List.mem_cons.mp h with rfl | hmem
      · exact ⟨hx, by simp [List.find?]⟩
      · obtain ⟨hns, hfind⟩ := ih (x.id :: seen) a hmem
        have hxa : x.id ≠ a.id := fun he => hns (by simp [he])
        have hns' : a.id ∉ seen := fun hs => hns (by simp [hs])
        refine ⟨hns', ?_⟩
        have hne : (x.id == a.id) = false := by
          simp only [beq_eq_false_iff_ne, ne_eq]; exact hxa
        simp [List.find?, hne, hfind]

theorem dedupScan_ids_nodup : ∀ (l : List Article) (seen : List String),
    ((Orchestrator.dedupScan l seen).map Article.id).Nodup := by
  intro l
  induction l with
  | nil => intro seen; simp [Orchestrator.dedupScan]
  | cons x rest ih =>
    intro seen
    by_cases hx : x.id ∈ seen
    · simpa [Orchestrator.dedupScan, if_pos hx] using ih seen
    · simp only [Orchestrator.dedupScan, if_neg hx, List.map_cons, List.nodup_cons]
      refine ⟨?_, ih (x.id :: seen)⟩
      intro hmem
      obtain ⟨a, ha, hid⟩ := List.mem_map.mp hmem
      have := (dedupScan_mem_spec rest (x.id :: seen) a ha).1
      exact this (by simp [hid])

theorem dedupScan_id_cover : ∀ (l : List Article) (seen : List String) (i : String),
    i ∈ l.map Article.id → i ∉ seen →
    i ∈ (Orchestrator.dedupScan l seen).map Article.id := by
  intro l
  induction l with
  | nil => intro seen i h _; simp at h
  | cons x rest ih =>
    intro seen i h hns
    rcases List.mem_cons.mp h with rfl | hmem
    · by_cases hx : x.id ∈ seen
      · exact absurd hx hns
      · simp [Orchestrator.dedupScan, if_neg hx]
    · by_cases hx : x.id ∈ seen
      · simpa [Orchestrator.dedupScan, if_pos hx] using ih seen i hmem hns
      · by_cases hix : i = x.id
        · simp [Orchestrator.dedupScan, if_neg hx, hix]
        · have : i ∉ x.id :: seen := by
            intro hc; rcases List.mem_cons.mp hc with hc | hc
            · exact hix hc
            · exact hns hc
          simp only [Orchestrator.dedupScan, if_neg hx, List.map_cons, List.mem_cons]
          exact Or.inr (ih (x.id :: seen) i hmem this)

theorem dedupScan_eq_self : ∀ (l : List Article) (seen : List String),
    (l.map Article.id).Nodup → (∀ i ∈ l.map Article.id, i ∉ seen) →
    Orchestrator.dedupScan l seen = l := by
  intro l
  induction l with
  | nil => intro seen _ _; rfl
  | cons x rest ih =>
    intro seen hnd hdisj
    rw [List.map_cons, List.nodup_cons] at hnd
    have hx : x.id ∉ seen := hdisj x.id (by simp)
    simp only [Orchestrator.dedupScan, if_neg hx]
    congr 1
    apply ih
    · exact hnd.2
    · intro i hi
      intro hc
      rcases List.mem_cons.mp hc with hc | hc
      · exact hnd.1 (hc ▸ hi)
      · exact hdisj i (by simp [hi]) hc

theorem dedupScan_length_le : ∀ (l : List Article) (seen : List String),
    (Orchestrator.dedupScan l seen).length ≤ l.length := by
  intro l
  induction l with
  | nil => intro seen; simp [Orchestrator.dedupScan]
  | cons x rest ih =>
    intro seen
    by_cases hx : x.id ∈ seen
    · simp only [Orchestrator.dedupScan, if_pos hx, List.length_cons]
      exact Nat.le_succ_of_le (ih seen)
    · simp only [Orchestrator.dedupScan, if_neg hx, List.length_cons]
      exact Nat.succ_le_succ (ih (x.id :: seen))

theorem dedupScan_length_lt : ∀ (l : List Article) (seen : List String),
    (¬ (l.map Article.id).Nodup ∨ ∃ a ∈ l, a.id ∈ seen) →
    (Orchestrator.dedupScan l seen).length < l.length := by
  intro l
  induction l with
  | nil =>
    intro seen h
    rcases h with h | ⟨a, ha, _⟩
    · simp at h
    · simp at ha
  | cons x rest ih =>
    intro seen h
    by_cases hx : x.id ∈ seen
    · simp only [Orchestrator.dedupScan, if_pos hx, List.length_cons]
      exact Nat.lt_succ_of_le (dedupScan_length_le rest seen)
    · simp only [Orchestrator.dedupScan, if_neg hx, List.length_cons]
      have : (Orchestrator.dedupScan rest (x.id :: seen)).length < rest.length := by
        apply ih
        rcases h with h | ⟨a, ha, hid⟩
        · simp only [List.map_cons, List.nodup_cons] at h
          push_neg at h
          by_cases hdup : x.id ∈ rest.map Article.id
          · obtain ⟨b, hb, hbid⟩ := List.mem_map.mp hdup
            exact Or.inr ⟨b, hb, by simp [hbid]⟩
          · exact Or.inl (fun hn => (h hdup) hn)
        · rcases List.mem_cons.mp ha with rfl | ha'
          · exact absurd hid hx
          · exact Or.inr ⟨a, ha', by simp [hid]⟩
      omega

theorem mergeSort_desc_pairwise (l : List Article) :
    (l.mergeSort (fun a b => Orchestrator.sortKeyOf b ≤ Orchestrator.sortKeyOf a)).Pairwise
      (fun a b => Orchestrator.sortKeyOf b ≤ Orchestrator.sortKeyOf a) := by
  have h := @List.sorted_mergeSort Article
    (fun a b : Article => decide (Orchestrator.sortKeyOf b ≤ Orchestrator.sortKeyOf a))
    (fun a b c hab hbc => by
      simp only [decide_eq_true_eq] at *
      exact le_trans hbc hab)
    (fun a b => by
      simp only [Bool.or_eq_true, decide_eq_true_eq]
      exact le_total _ _)
    l
  exact h.imp (fun h => of_decide_eq_true h)

/-- C1: the merged articles sequence is non-increasing in published_at
    (string order on the ISO timestamps, which is how the code sorts), and a
    record lacking published_at sorts with the Unix-epoch key. -/
theorem c1_merge_output_sorted_desc (results : List SourceResult) :
    (Orchestrator.merge_and_dedup results).Pairwise
      (fun a b => Orchestrator.sortKeyOf b ≤ Orchestrator.sortKeyOf a)
    ∧ ∀ a : Article, a.published_at = none →
        Orchestrator.sortKeyOf a = "1970-01-01T00:00:00+00:00" := by
  constructor
  · exact mergeSort_desc_pairwise _
  · intro a h
    simp [Orchestrator.sortKeyOf, h]

theorem c1_witness :
    (Orchestrator.merge_and_dedup [exBB, exRD]).Pairwise
      (fun a b => Orchestrator.sortKeyOf b ≤ Orchestrator.sortKeyOf a)
    ∧ Orchestrator.sortKeyOf exNoDate = "1970-01-01T00:00:00+00:00" :=
  ⟨(c1_merge_output_sorted_desc [exBB, exRD]).1,
   (c1_merge_output_sorted_desc [exBB, exRD]).2 exNoDate rfl⟩

/-- C2: dedup keeps exactly one article per id — the first one seen in
    adapter-run order (Ben's Bites before Rundown) — and the merged output's
    ids are unique; every input id survives. -/
theorem c2_dedup_first_seen (bb rd : SourceResult) (now : PyDateTime) :
    (Orchestrator.run bb rd now).articles = Orchestrator.merge_and_dedup [bb, rd]
    ∧ ((Orchestrator.merge_and_dedup [bb, rd]).map Article.id).Nodup
    ∧ (∀ a ∈ Orchestrator.merge_and_dedup [bb, rd],
        (bb.articles ++ rd.articles).find? (fun b => b.id == a.id) = some a)
    ∧ (∀ i ∈ (bb.articles ++ rd.articles).map Article.id,
        i ∈ (Orchestrator.merge_and_dedup [bb, rd]).map Article.id) := by
  have hflat : ([bb, rd].map SourceResult.articles).flatten = bb.articles ++ rd.articles := by
    simp
  have hperm := List.mergeSort_perm
    (Orchestrator.dedupScan (([bb, rd].map SourceResult.articles).flatten) [])
    (fun a b => Orchestrator.sortKeyOf b ≤ Orchestrator.sortKeyOf a)
  refine ⟨rfl, ?_, ?_, ?_⟩
  · show ((Orchestrator.dedupScan _ []).mergeSort _ |>.map Article.id).Nodup
    exact ((hperm.map Article.id).nodup_iff).mpr (dedupScan_ids_nodup _ [])
  · intro a ha
    have ha' : a ∈ Orchestrator.dedupScan (([bb, rd].map SourceResult.articles).flatten) [] :=
      List.mem_mergeSort.mp ha
    have := (dedupScan_mem_spec _ [] a ha').2
    rwa [hflat] at this
  · intro i hi
    have hi' : i ∈ (([bb, rd].map SourceResult.articles).flatten).map Article.id := by
      rwa [hflat]
    have hcov := dedupScan_id_cover _ [] i hi' (by simp)
    exact ((hperm.map Article.id).mem_iff).mpr hcov

theorem c2_witness :
    ((Orchestrator.merge_and_dedup [exBB, exRD]).map Article.id).Nodup
    ∧ (exBB.articles ++ exRD.articles).find?
        (fun b => b.id == (exArticle "i1" "u1" "2026-02-20T00:00:00+00:00").id)
        = some (exArticle "i1" "u1" "2026-02-20T00:00:00+00:00") :=
  ⟨(c2_dedup_first_seen exBB exRD exNow).2.1,
   (c2_dedup_first_seen exBB exRD exNow).2.2.1 _ (List.mem_mergeSort.mpr (by decide))⟩

/-- C5: a failed RSS fetch yields the error-flagged, zero-article result
    without raising (the function is total), and the orchestrator's merged
    output still carries every Rundown article. -/
theorem c5_rss_failure_isolated (htmlData : String → List HtmlEvent)
    (now cutoff : PyDateTime) (rd : SourceResult) (nowO : PyDateTime) :
    BensBites.run none htmlData now cutoff =
      { scraped_at := now.isoformat, window_hours := 48, article_count := 0,
        articles := [], error := some "Failed to fetch RSS feed" }
    ∧ (∀ a ∈ rd.articles,
        a.id ∈ (Orchestrator.run (BensBites.run none htmlData now cutoff) rd nowO).articles.map
          Article.id)
    ∧ ((rd.articles.map Article.id).Nodup →
        ∀ a ∈ rd.articles,
          a ∈ (Orchestrator.run (BensBites.run none htmlData now cutoff) rd nowO).articles) := by
  have harts : (Orchestrator.run (BensBites.run none htmlData now cutoff) rd nowO).articles
      = (Orchestrator.dedupScan rd.articles []).mergeSort
          (fun a b => Orchestrator.sortKeyOf b ≤ Orchestrator.sortKeyOf a) := by
    simp [Orchestrator.run, Orchestrator.merge_and_dedup, BensBites.run]
  have hperm := List.mergeSort_perm (Orchestrator.dedupScan rd.articles [])
    (fun a b => Orchestrator.sortKeyOf b ≤ Orchestrator.sortKeyOf a)
  refine ⟨rfl, ?_, ?_⟩
  · intro a ha
    rw [harts]
    exact ((hperm.map Article.id).mem_iff).mpr
      (dedupScan_id_cover rd.articles [] a.id (List.mem_map_of_mem Article.id ha) (by simp))
  · intro hnd a ha
    rw [harts, dedupScan_eq_self rd.articles [] hnd (by simp)]
    exact List.mem_mergeSort.mpr ha

theorem c5_witness :
    BensBites.run none (fun _ => []) exNow exNow =
      { scraped_at := exNow.isoformat, window_hours := 48, article_count := 0,
        articles := [], error := some "Failed to fetch RSS feed" }
    ∧ exArticle "i1" "u1" "2026-02-21T00:00:00+00:00"
        ∈ (Orchestrator.run (BensBites.run none (fun _ => []) exNow exNow) exRD exNow).articles :=
  ⟨(c5_rss_failure_isolated (fun _ => []) exNow exNow exRD exNow).1,
   (c5_rss_failure_isolated (fun _ => []) exNow exNow exRD exNow).2.2 (by decide) _
     (by decide)⟩

/-- C8: both adapters use (and report) a 48-hour window, while the merged
    artifact labels itself with window_hours = 24. -/
theorem c8_window_labels (fetched : Option (Option (List RSSItem)))
    (htmlData : String → List HtmlEvent)
    (homepage : Option (List (String × Option (List HtmlEvent))))
    (now cutoff now2 cutoff2 : PyDateTime) (bb rd : SourceResult) (now3 : PyDateTime) :
    BensBites.WINDOW_HOURS = 48
    ∧ Rundown.WINDOW_HOURS = 48
    ∧ (BensBites.run fetched htmlData now cutoff).window_hours = 48
    ∧ (Rundown.run homepage now2 cutoff2).window_hours = 48
    ∧ (Orchestrator.run bb rd now3).window_hours = 24 := by
  refine ⟨rfl, rfl, ?_, ?_, rfl⟩
  · cases fetched <;> rfl
  · cases homepage <;> rfl

/-- C10: the merged artifact's article_count is the deduplicated length,
    the per-source counts are the adapters' own (pre-dedup) counts, and a
    URL shared between the two adapters makes the sum of source counts
    strictly exceed the merged count. -/
theorem c10_merged_counts (bb rd : SourceResult) (now : PyDateTime) :
    (Orchestrator.run bb rd now).article_count = (Orchestrator.run bb rd now).articles.length
    ∧ (Orchestrator.run bb rd now).sources_bens_bites = bb.article_count
    ∧ (Orchestrator.run bb rd now).sources_rundown_ai = rd.article_count
    ∧ (bb.article_count = bb.articles.length →
       rd.article_count = rd.articles.length →
       (∃ a ∈ bb.articles, ∃ b ∈ rd.articles,
          a.url = b.url ∧ a.id = BensBites.make_id a.url ∧ b.id = Rundown.make_id b.url) →
       (Orchestrator.run bb rd now).article_count < bb.article_count + rd.article_count) := by
  refine ⟨rfl, rfl, rfl, ?_⟩
  intro hbb hrd hshared
  obtain ⟨a, ha, b, hb, hurl, haid, hbid⟩ := hshared
  have hid : a.id = b.id := by
    rw [haid, hbid, hurl]
    rfl
  have hcount : (Orchestrator.run bb rd now).article_count
      = (Orchestrator.dedupScan (bb.articles ++ rd.articles) []).length := by
    show (Orchestrator.merge_and_dedup [bb, rd]).length = _
    simp [Orchestrator.merge_and_dedup]
  have hnotnodup : ¬ ((bb.articles ++ rd.articles).map Article.id).Nodup := by
    intro hnd
    rw [List.map_append, List.nodup_append] at hnd
    exact hnd.2.2 (List.mem_map_of_mem Article.id ha)
      (hid ▸ List.mem_map_of_mem Article.id hb)
  have hlt := dedupScan_length_lt (bb.articles ++ rd.articles) [] (Or.inl hnotnodup)
  rw [hcount, hbb, hrd]
  simpa using hlt

theorem c10_witness :
    (Orchestrator.run exBBm exRDm exNow).article_count
      < exBBm.article_count + exRDm.article_count :=
  (c10_merged_counts exBBm exRDm exNow).2.2.2 rfl rfl
    ⟨exShared1, List.mem_singleton.mpr rfl, exShared2, List.mem_singleton.mpr rfl,
     rfl, rfl, rfl⟩

theorem tryFormats_eq_none_iff : ∀ (fmts : List (List FTok)) (s : String),
    tryFormats fmts s = none ↔ ∀ fmt ∈ fmts, strptime fmt s = none := by
  intro fmts s
  induction fmts with
  | nil => simp [tryFormats]
  | cons f rest ih =>
    simp only [tryFormats]
    cases hf : strptime f s with
    | some d => simp [hf]
    | none => simp [hf, ih]

theorem coerceUTC_isAware (dt : PyDateTime) : dt.coerceUTC.isAware = true := by
  cases h : dt.tzOffsetSeconds with
  | none => simp [PyDateTime.coerceUTC, h, PyDateTime.isAware]
  | some v => simp [PyDateTime.coerceUTC, h, PyDateTime.isAware]

/-- C7: both date normalizers try their fixed format list in order and
    return the first success; they return none exactly when every format
    fails (they are total functions, so nothing escapes this boundary); a
    naive parse from parse_article_date is coerced to UTC, and every
    published_at an article record carries is the isoformat of an aware
    datetime. -/
theorem c7_date_normalizer_first_match :
    (∀ s : String,
      BensBites.parse_rss_date s =
        (match strptime BensBites.rssFmt1 (pyStrip s) with
         | some d => some d
         | none =>
           match strptime BensBites.rssFmt2 (pyStrip s) with
           | some d => some d
           | none => strptime BensBites.rssFmt3 (pyStrip s)))
    ∧ (∀ s : String, BensBites.parse_rss_date s = none ↔
        ∀ fmt ∈ BensBites.rssFormats, strptime fmt (pyStrip s) = none)
    ∧ (∀ s : String, Rundown.parse_article_date s = none ↔
        ∀ fmt ∈ Rundown.artFormats, strptime fmt (pyRstripComma (pyStrip s)) = none)
    ∧ (∀ (s : String) (d : PyDateTime),
        Rundown.parse_article_date s = some d → d.isAware = true)
    ∧ (∀ (s : String) (d0 : PyDateTime),
        tryFormats Rundown.artFormats (pyRstripComma (pyStrip s)) = some d0 →
        Rundown.parse_article_date s = some d0.coerceUTC)
    ∧ (∀ (htmlData : String → List HtmlEvent) (cutoff : PyDateTime) (sa : String)
         (it : RSSItem) (a : Article),
        BensBites.processItem htmlData cutoff sa it = some a →
        ∃ d : PyDateTime, d.isAware = true ∧ a.published_at = some d.isoformat) := by
  refine ⟨?_, ?_, ?_, ?_, ?_, ?_⟩
  · intro s
    simp only [BensBites.parse_rss_date, BensBites.rssFormats, tryFormats]
    cases strptime BensBites.rssFmt1 (pyStrip s) <;>
      cases strptime BensBites.rssFmt2 (pyStrip s) <;>
      cases strptime BensBites.rssFmt3 (pyStrip s) <;> rfl
  · intro s
    exact tryFormats_eq_none_iff BensBites.rssFormats (pyStrip s)
  · intro s
    simp only [Rundown.parse_article_date]
    cases h : tryFormats Rundown.artFormats (pyRstripComma (pyStrip s)) with
    | some d => simp [h, ← tryFormats_eq_none_iff]
    | none => simp [h, ← tryFormats_eq_none_iff]
  · intro s d h
    simp only [Rundown.parse_article_date] at h
    cases h0 : tryFormats Rundown.artFormats (pyRstripComma (pyStrip s)) with
    | some d0 =>
      rw [h0] at h
      simp only [Option.some.injEq] at h
      rw [← h]
      exact coerceUTC_isAware d0
    | none => rw [h0] at h; exact absurd h (by simp)
  · intro s d0 h
    simp only [Rundown.parse_article_date, h]
  · intro htmlData cutoff sa it a h
    simp only [BensBites.processItem] at h
    split at h
    next t u =>
      split at h
      · exact absurd h (by simp)
      · split at h
        · exact absurd h (by simp)
        next pd0 heq =>
          split at h
          · exact absurd h (by simp)
          · refine ⟨pd0.coerceUTC, coerceUTC_isAware pd0, ?_⟩
            simp only [Option.some.injEq] at h
            rw [← h]
    next => exact absurd h (by simp)

theorem c7_witness :
    (BensBites.parse_rss_date "Mon, 01 Jan 2026 00:00:00 GMT" = none ↔
      ∀ fmt ∈ BensBites.rssFormats,
        strptime fmt (pyStrip "Mon, 01 Jan 2026 00:00:00 GMT") = none)
    ∧ (⟨2026, 2, 20, 0, 0, 0, some 0⟩ : PyDateTime).isAware = true
    ∧ Rundown.parse_article_date "Feb 20, 2026" =
        some ((⟨2026, 2, 20, 0, 0, 0, none⟩ : PyDateTime).coerceUTC) :=
  ⟨(c7_date_normalizer_first_match).2.1 "Mon, 01 Jan 2026 00:00:00 GMT",
   (c7_date_normalizer_first_match).2.2.2.1 "Feb 20, 2026" ⟨2026, 2, 20, 0, 0, 0, some 0⟩
     (by decide),
   (c7_date_normalizer_first_match).2.2.2.2.1 "Feb 20, 2026" ⟨2026, 2, 20, 0, 0, 0, none⟩
     (by decide)⟩

theorem coerceUTC_eq_self_of_aware (d : PyDateTime) (h : d.isAware = true) :
    d.coerceUTC = d := by
  cases htz : d.tzOffsetSeconds with
  | none => rw [PyDateTime.isAware, htz] at h; simp at h
  | some v => simp [PyDateTime.coerceUTC, htz]

/-- C4: with a parseable date and the required fields present, the RSS
    item-level filter keeps an article exactly when its (UTC-coerced) publish
    instant is not strictly earlier than now minus 48 hours, and the Rundown
    per-page filter does the same for a timezone-aware extracted date; at the
    boundary, now − 48h − 1s is excluded while now − 47h and exactly
    now − 48h are retained. -/
theorem c4_recency_window :
    (∀ (htmlData : String → List HtmlEvent) (now cutoff : PyDateTime) (sa : String)
       (desc : Option String) (cats : List (Option String)) (t u ds : String)
       (pd0 : PyDateTime),
      pyStrip t ≠ "" → pyStrip u ≠ "" → ds ≠ "" →
      BensBites.parse_rss_date ds = some pd0 →
      cutoff.toInstant = now.toInstant - 48 * 3600 →
      ((BensBites.processItem htmlData cutoff sa ⟨some t, some u, desc, some ds, cats⟩).isSome
        = true ↔ ¬ (pd0.coerceUTC.toInstant < now.toInstant - 48 * 3600)))
    ∧ (∀ (u : String) (page : Option (List HtmlEvent)) (meta : Rundown.ArticleMeta)
         (d : PyDateTime) (now cutoff : PyDateTime),
        Rundown.scrape_article_metadata page = some meta →
        meta.published_at = some d →
        d.isAware = true →
        cutoff.toInstant = now.toInstant - 48 * 3600 →
        ((Rundown.collectArticles [(u, page)] now cutoff).length = 1 ↔
          ¬ (d.toInstant < now.toInstant - 48 * 3600)))
    ∧ c4Cutoff.toInstant = c4Now.toInstant - 48 * 3600
    ∧ (BensBites.processItem (fun _ => []) c4Cutoff "sa"
        (c4Item "Fri, 20 Feb 2026 23:59:59 +0000")).isSome = false
    ∧ (BensBites.processItem (fun _ => []) c4Cutoff "sa"
        (c4Item "Sat, 21 Feb 2026 01:00:00 +0000")).isSome = true
    ∧ (BensBites.processItem (fun _ => []) c4Cutoff "sa"
        (c4Item "Sat, 21 Feb 2026 00:00:00 +0000")).isSome = true := by
  refine ⟨?_, ?_, by decide, by decide, by decide, by decide⟩
  · intro htmlData now cutoff sa desc cats t u ds pd0 hts hus hds hp hc
    have htne : t ≠ "" := fun he => hts (by rw [he]; rfl)
    have hune : u ≠ "" := fun he => hus (by rw [he]; rfl)
    simp only [BensBites.processItem, if_pos htne, if_pos hune, hds, if_pos hds, hp]
    rw [if_neg (by push_neg; exact ⟨hts, hus⟩)]
    by_cases hlt : pd0.coerceUTC.toInstant < cutoff.toInstant
    · rw [if_pos (by simp [PyDateTime.lt, hlt])]
      simp only [Option.isSome_none, Bool.false_eq_true, false_iff, not_not]
      rw [← hc]
      exact hlt
    · rw [if_neg (by simp [PyDateTime.lt, hlt])]
      simp only [Option.isSome_some, true_iff]
      rw [← hc]
      exact hlt
  · intro u page meta d now cutoff hmeta hpub haware hc
    simp only [Rundown.collectArticles, List.filterMap, hmeta, hpub,
      coerceUTC_eq_self_of_aware d haware]
    by_cases hlt : d.toInstant < cutoff.toInstant
    · rw [if_pos (by simp [PyDateTime.lt, hlt])]
      simp only [List.length_nil]
      constructor
      · intro h01; exact absurd h01 (by simp)
      · intro hn; rw [← hc] at hn; exact absurd hlt hn
    · rw [if_neg (by simp [PyDateTime.lt, hlt])]
      simp only [List.length_cons, List.length_nil, true_iff]
      intro hlt2
      rw [← hc] at hlt2
      exact hlt hlt2

theorem c4_witness :
    ((BensBites.processItem (fun _ => []) c4Cutoff "sa"
        (c4Item "Sat, 21 Feb 2026 00:00:00 +0000")).isSome = true ↔
      ¬ ((⟨2026, 2, 21, 0, 0, 0, some 0⟩ : PyDateTime).coerceUTC.toInstant
          < c4Now.toInstant - 48 * 3600))
    ∧ ((Rundown.collectArticles [("u", some c4Page)] c4Now c4Cutoff).length = 1 ↔
        ¬ ((⟨2026, 2, 22, 0, 0, 0, some 0⟩ : PyDateTime).toInstant
            < c4Now.toInstant - 48 * 3600)) :=
  ⟨c4_recency_window.1 (fun _ => []) c4Now c4Cutoff "sa" none [] "T" "u"
      "Sat, 21 Feb 2026 00:00:00 +0000" ⟨2026, 2, 21, 0, 0, 0, some 0⟩
      (by decide) (by decide) (by decide) (by decide) (by decide),
   c4_recency_window.2.1 "u" (some c4Page)
      ⟨"T2", "", some ⟨2026, 2, 22, 0, 0, 0, some 0⟩⟩ ⟨2026, 2, 22, 0, 0, 0, some 0⟩
      c4Now c4Cutoff (by decide) rfl rfl (by decide)⟩

theorem metaStartTag_bodyDates (st : MetaState) (tag : String)
    (attrs : List (String × String)) :
    (Rundown.metaStartTag st tag attrs).bodyDates = st.bodyDates := by
  simp only [Rundown.metaStartTag]
  repeat' split
  all_goals rfl

theorem metaStartTag_meta202 (st : MetaState) (tag : String)
    (attrs : List (String × String))
    (h : ∀ v, st.publishedAtMeta = some v → containsSub v.data "202".data = true) :
    ∀ v, (Rundown.metaStartTag st tag attrs).publishedAtMeta = some v →
      containsSub v.data "202".data = true := by
  intro v hv
  simp only [Rundown.metaStartTag] at hv
  repeat' split at hv
  all_goals first
    | exact h v hv
    | (rename_i hcond
       simp only [Option.some.injEq] at hv
       exact hv ▸ hcond.2)

theorem metaFold_bodyDates : ∀ (evs : List HtmlEvent) (st : MetaState),
    (List.foldl Rundown.metaStep st evs).bodyDates
      = st.bodyDates ++ ((dataChunks evs).map (fun s => findDates (pyStrip s))).flatten := by
  intro evs
  induction evs with
  | nil => intro st; simp [dataChunks]
  | cons ev rest ih =>
    intro st
    cases ev with
    | startTag tag attrs =>
      simp only [List.foldl_cons, Rundown.metaStep]
      rw [ih]
      simp [dataChunks, metaStartTag_bodyDates]
    | endTag tag =>
      simp only [List.foldl_cons, Rundown.metaStep]
      rw [ih]
      simp [dataChunks]
    | chunk s =>
      simp only [List.foldl_cons, Rundown.metaStep, Rundown.metaData]
      rw [ih]
      simp [dataChunks, List.append_assoc]

theorem metaFold_meta202 : ∀ (evs : List HtmlEvent) (st : MetaState),
    (∀ v, st.publishedAtMeta = some v → containsSub v.data "202".data = true) →
    ∀ v, (List.foldl Rundown.metaStep st evs).publishedAtMeta = some v →
      containsSub v.data "202".data = true := by
  intro evs
  induction evs with
  | nil => intro st h; exact h
  | cons ev rest ih =>
    intro st h
    cases ev with
    | startTag tag attrs =>
      exact ih (Rundown.metaStartTag st tag attrs) (metaStartTag_meta202 st tag attrs h)
    | endTag tag => exact ih st h
    | chunk s => exact ih { st with bodyDates := st.bodyDates ++ findDates (pyStrip s) } h

/-- C3: the extracted publish date is the first date-like substring found in
    the visible body text (the body-date list is exactly the in-order regex
    matches over the data chunks, and get_best_date returns its head); the
    published-time meta value is consulted only when no body date exists and
    is only ever stored when it contains the substring "202"; on the page
    whose body says "Feb 20, 2026" and whose meta says 2019-01-01, the
    extracted date is 2026-02-20 UTC. -/
theorem c3_body_date_priority :
    (∀ evs : List HtmlEvent,
      (Rundown.metaParseEvents evs).bodyDates
          = ((dataChunks evs).map (fun s => findDates (pyStrip s))).flatten
      ∧ (∀ (d : String) (rest : List String),
          (Rundown.metaParseEvents evs).bodyDates = d :: rest →
          Rundown.getBestDate (Rundown.metaParseEvents evs) = some d)
      ∧ ((Rundown.metaParseEvents evs).bodyDates = [] →
          Rundown.getBestDate (Rundown.metaParseEvents evs)
            = (Rundown.metaParseEvents evs).publishedAtMeta)
      ∧ (∀ v, (Rundown.metaParseEvents evs).publishedAtMeta = some v →
          containsSub v.data "202".data = true))
    ∧ Rundown.scrape_article_metadata (some c3Page)
        = some { title := "Test", description := "Desc",
                 published_at := some ⟨2026, 2, 20, 0, 0, 0, some 0⟩ } := by
  constructor
  · intro evs
    refine ⟨?_, ?_, ?_, ?_⟩
    · simpa using metaFold_bodyDates evs {}
    · intro d rest h
      simp [Rundown.getBestDate, h]
    · intro h
      simp [Rundown.getBestDate, h]
    · exact metaFold_meta202 evs {} (fun v hv => Option.noConfusion hv)
  · decide

theorem c3_witness :
    Rundown.getBestDate (Rundown.metaParseEvents c3Page) = some "Feb 20, 2026" :=
  (c3_body_date_priority.1 c3Page).2.1 "Feb 20, 2026" ["Mar 1, 2026"] (by decide)

/-- C9: the stored summary is the joined, stripped text unchanged when it
    has at most 300 characters, and its 300-character prefix with a trailing
    ellipsis exactly when it is longer; the Rundown description is capped
    identically. -/
theorem c9_summary_truncation :
    (∀ evs : List HtmlEvent,
      ((pyStrip (String.intercalate " " (BensBites.stripperFed evs))).length ≤ 300 →
        BensBites.strip_html evs
          = pyStrip (String.intercalate " " (BensBites.stripperFed evs)))
      ∧ (300 < (pyStrip (String.intercalate " " (BensBites.stripperFed evs))).length →
          BensBites.strip_html evs
            = String.mk ((pyStrip (String.intercalate " "
                (BensBites.stripperFed evs))).data.take 300) ++ "..."))
    ∧ (∀ (evs : List HtmlEvent) (m : Rundown.ArticleMeta),
        Rundown.scrape_article_metadata (some evs) = some m →
        ((pyStrip ((Rundown.metaParseEvents evs).description.getD "")).length ≤ 300 →
          m.description = pyStrip ((Rundown.metaParseEvents evs).description.getD ""))
        ∧ (300 < (pyStrip ((Rundown.metaParseEvents evs).description.getD "")).length →
          m.description
            = String.mk ((pyStrip ((Rundown.metaParseEvents
                evs).description.getD "")).data.take 300) ++ "...")) := by
  constructor
  · intro evs
    constructor
    · intro hle
      simp only [BensBites.strip_html]
      rw [if_neg (by omega)]
    · intro hgt
      simp only [BensBites.strip_html]
      rw [if_pos hgt]
  · intro evs m h
    simp only [Rundown.scrape_article_metadata] at h
    split at h
    · exact absurd h (by simp)
    · simp only [Option.some.injEq] at h
      constructor
      · intro hle
        rw [← h]
        show (if 300 < _ then _ else _) = _
        rw [if_neg (by omega)]
      · intro hgt
        rw [← h]
        show (if 300 < _ then _ else _) = _
        rw [if_pos hgt]

theorem c9_witness :
    BensBites.strip_html [HtmlEvent.chunk c9Long]
      = String.mk ((pyStrip (String.intercalate " "
          (BensBites.stripperFed [HtmlEvent.chunk c9Long]))).data.take 300) ++ "..."
    ∧ BensBites.strip_html [HtmlEvent.chunk "hi"]
      = pyStrip (String.intercalate " " (BensBites.stripperFed [HtmlEvent.chunk "hi"]))
    ∧ (⟨"T", String.mk ((pyStrip ((Rundown.metaParseEvents
            c9Page).description.getD "")).data.take 300) ++ "...", none⟩ :
          Rundown.ArticleMeta).description
      = String.mk ((pyStrip ((Rundown.metaParseEvents
          c9Page).description.getD "")).data.take 300) ++ "..." :=
  ⟨(c9_summary_truncation.1 [HtmlEvent.chunk c9Long]).2 (by decide),
   (c9_summary_truncation.1 [HtmlEvent.chunk "hi"]).1 (by decide),
   ((c9_summary_truncation.2 c9Page
      ⟨"T", String.mk ((pyStrip ((Rundown.metaParseEvents
          c9Page).description.getD "")).data.take 300) ++ "...", none⟩
      (by decide)).2 (by decide))⟩

theorem encode128_lt : ∀ cs : List Char,
    (∀ c ∈ cs, c.toNat < 128) → encode128 cs < 128 ^ cs.length := by
  intro cs
  induction cs with
  | nil => intro _; simp [encode128]
  | cons c rest ih =>
    intro h
    have hc : c.toNat < 128 := h c (by simp)
    have hr : encode128 rest < 128 ^ rest.length := ih (fun x hx => h x (by simp [hx]))
    simp only [encode128, List.length_cons, pow_succ]
    calc c.toNat + 128 * encode128 rest
        ≤ 127 + 128 * encode128 rest := by omega
      _ < 128 * (encode128 rest + 1) := by omega
      _ ≤ 128 * 128 ^ rest.length := Nat.mul_le_mul_left 128 hr
      _ = 128 ^ rest.length * 128 := by ring

theorem encode128_inj : ∀ cs ds : List Char,
    cs.length = ds.length →
    (∀ c ∈ cs, c.toNat < 128) → (∀ c ∈ ds, c.toNat < 128) →
    encode128 cs = encode128 ds → cs = ds := by
  intro cs
  induction cs with
  | nil =>
    intro ds hlen _ _ _
    cases ds with
    | nil => rfl
    | cons d ds => simp at hlen
  | cons c rest ih =>
    intro ds hlen hcs hds henc
    cases ds with
    | nil => simp at hlen
    | cons d ds' =>
      simp only [encode128] at henc
      have hc : c.toNat < 128 := hcs c (by simp)
      have hd : d.toNat < 128 := hds d (by simp)
      have hhead : c.toNat = d.toNat := by omega
      have htail : encode128 rest = encode128 ds' := by omega
      have hcd : c = d := by
        rw [← Char.ofNat_toNat c, ← Char.ofNat_toNat d, hhead]
      rw [hcd, ih ds' (by simpa using hlen) (fun x hx => hcs x (by simp [hx]))
        (fun x hx => hds x (by simp [hx])) htail]

theorem hexDigit_toNat_lt : ∀ n < 16, (hexDigit n).toNat < 128 := by decide

theorem wordHex_chars (w : Nat) : ∀ c ∈ wordHex w, c.toNat < 128 := by
  intro c hc
  simp only [wordHex, List.mem_cons, List.not_mem_nil, or_false] at hc
  rcases hc with rfl | rfl | rfl | rfl | rfl | rfl | rfl | rfl <;>
    exact hexDigit_toNat_lt _ (Nat.mod_lt _ (by norm_num))

theorem sha256Hex_chars (m : List Nat) : ∀ c ∈ sha256Hex m, c.toNat < 128 := by
  intro c hc
  simp only [sha256Hex, List.mem_append] at hc
  rcases hc with ((((((h | h) | h) | h) | h) | h) | h) | h <;> exact wordHex_chars _ c h

theorem sha256Hex_length (m : List Nat) : (sha256Hex m).length = 64 := by
  simp [sha256Hex, wordHex]

theorem make_id_data (u : String) :
    (BensBites.make_id u).data = (sha256Hex (strBytes u)).take 16 := rfl

theorem make_id_data_length (u : String) : (BensBites.make_id u).data.length = 16 := by
  rw [make_id_data, List.length_take, sha256Hex_length]
  norm_num

theorem make_id_chars (u : String) : ∀ c ∈ (BensBites.make_id u).data, c.toNat < 128 := by
  intro c hc
  rw [make_id_data] at hc
  exact sha256Hex_chars (strBytes u) c (List.take_subset 16 _ hc)

/-- C6 counterexample: make_id maps the infinitely many URLs onto the
    finitely many 16-character hex strings, so the claimed unconditional
    injectivity ("distinct URLs never share an id") is false: two distinct
    URLs with the same id must exist. -/
theorem c6_injectivity_refuted :
    ¬ (∀ u1 u2 : String, u1 ≠ u2 → BensBites.make_id u1 ≠ BensBites.make_id u2) := by
  intro hinj
  have hbound : ∀ u : String, encode128 (BensBites.make_id u).data < 128 ^ 16 := by
    intro u
    have h := encode128_lt (BensBites.make_id u).data (make_id_chars u)
    rwa [make_id_data_length] at h
  obtain ⟨x, y, hxy, hfeq⟩ :=
    Finite.exists_ne_map_eq_of_infinite
      (fun u : String => (⟨encode128 (BensBites.make_id u).data, hbound u⟩ : Fin (128 ^ 16)))
  have henc : (⟨encode128 (BensBites.make_id x).data, hbound x⟩ : Fin (128 ^ 16)).val
      = (⟨encode128 (BensBites.make_id y).data, hbound y⟩ : Fin (128 ^ 16)).val :=
    congrArg Fin.val hfeq
  have hdata : (BensBites.make_id x).data = (BensBites.make_id y).data :=
    encode128_inj _ _ (by rw [make_id_data_length, make_id_data_length])
      (make_id_chars x) (make_id_chars y) (by simpa using henc)
  have hid : BensBites.make_id x = BensBites.make_id y := by
    have h2 := congrArg String.mk hdata
    rwa [make_id_data, make_id_data, ← make_id_data x, ← make_id_data y] at h2
  exact hinj x y hxy hid

/-- C6 (amended): make_id is a pure function (computing it twice on the same
    URL gives the same value) and the two adapters' textually identical
    definitions agree on every input; the id space is the 16-character hex
    strings, so distinct URLs receive distinct ids only up to truncated-hash
    collisions. -/
theorem c6_make_id_deterministic_and_shared (u : String) :
    BensBites.make_id u = Rundown.make_id u
    ∧ (BensBites.make_id u).length = 16 := by
  refine ⟨rfl, ?_⟩
  show (BensBites.make_id u).data.length = 16
  exact make_id_data_length u
